import Mathlib

/-
Verification of the offline transport core:
  * `packages/core/src/transports/offline.ts` — the Offline Transport Engine
    (`makeOfflineTransport`: `send`, `flush`, `flushIn`, `flushWithBackOff`,
    `shouldQueue`, the retry/backoff state).
  * the IndexedDb-backed durable queue (`insert`, `pop`, `size`, `clear`
    over an ordered key-value store).

The queue is embedded as a key-sorted association list `List (Nat × Envelope)`
(IndexedDb object stores enumerate keys in ascending order and keys are
unique).  The engine's in-memory state (`retryDelay`, `flushTimer`,
`sizeToFlush`, `flushedCnt`) is an explicit record; `setTimeout` is embedded
by recording the armed timer (id, delay, head-flag) plus the multiset of
pending timer ids, and a separate `flushCallback` step models the timer
firing.  Asynchronous results of the inner transport are passed in as an
explicit `TransportResult` argument.
-/

namespace Offline

/-- An envelope is opaque to the core except for its item-type tags, which
`shouldQueue` inspects.  We model it by its list of item types. -/
structure Envelope where
  itemTypes : List String
deriving DecidableEq

/-- Constant MIN_DELAY = 100 ms from offline.ts. -/
def MIN_DELAY : Nat := 100

/-- Constant START_DELAY = 5000 ms from offline.ts. -/
def START_DELAY : Nat := 5000

/-- Constant MAX_DELAY = 3.6e6 ms (one hour) from offline.ts. -/
def MAX_DELAY : Nat := 3600000

/-- Modelled from the spec: `envelopeContainsItemType(env, kinds)` (an external
utility from the repository, not under src/) returns whether the envelope's
item-type set intersects `kinds`. -/
def envelopeContainsItemType (env : Envelope) (kinds : List String) : Bool :=
  env.itemTypes.any (fun t => kinds.contains t)

/-- Modelled from the spec: `parseRetryAfterHeader` (an external utility from
the repository, not under src/) turns an absolute-seconds header value into
milliseconds (spec section 6.4 and scenario 3: header "7" yields 7000 ms).
Non-numeric values fall back to a 60 s default. -/
def parseRetryAfterSpec (s : String) : Nat :=
  if s.data.length ≠ 0 ∧ s.data.all Char.isDigit then
    (s.data.foldl (fun n c => n * 10 + (c.toNat - 48)) 0) * 1000
  else 60000

/- ------------------------------------------------------------------ -/
/- The durable queue (browser IndexedDb store: insert / pop / size / clear) -/
/- ------------------------------------------------------------------ -/

/-- Key-ordered write of `IDBObjectStore.put(value, key)`: overwrites the
entry at `key` when present, otherwise adds a new entry, keeping the list
sorted by key ascending. -/
def put : List (Nat × Envelope) → Nat → Envelope → List (Nat × Envelope)
  | [], k, v => [(k, v)]
  | (k', v') :: rest, k, v =>
    if k < k' then (k, v) :: (k', v') :: rest
    else if k = k' then (k, v) :: rest
    else (k', v') :: put rest k v

/-- The JS expression `Math.max(...keys, 0)`. -/
def maxKey (q : List (Nat × Envelope)) : Nat :=
  q.foldr (fun p m => max p.1 m) 0

/-- Queue `insert` from the browser offline store: reads the current keys; if
`keys.length >= maxQueueSize` the insert silently returns without writing;
otherwise it puts the value at key `0` when `toStart`, else at
`Math.max(...keys, 0) + 1`. -/
def insert (q : List (Nat × Envelope)) (env : Envelope) (maxQueueSize : Nat)
    (toStart : Bool) : List (Nat × Envelope) :=
  if maxQueueSize ≤ q.length then q
  else
    let key := if toStart then 0 else maxKey q + 1
    put q key env

/-- Queue `pop` from the browser offline store: with the ascending key list
`keys`, if `keys.length` is zero nothing happens; otherwise it reads and
deletes the entry at `keys[offset]`.  A JS out-of-range index (`offset`
negative or beyond the end) makes `keys[offset]` undefined, the `get` raises,
the transaction aborts and the adapter's catch resolves `undefined` with
nothing deleted — so those offsets return `none` and leave the queue
unchanged.  The offset is an `Int` because the engine computes it as
`sizeToFlush - flushedCnt`. -/
def pop (q : List (Nat × Envelope)) (offset : Int) :
    Option Envelope × List (Nat × Envelope) :=
  if q.length = 0 then (none, q)
  else if offset < 0 then (none, q)
  else
    match q.get? offset.toNat with
    | some kv => (some kv.2, q.eraseIdx offset.toNat)
    | none => (none, q)

/-- Queue `size`: the number of keys. -/
def size (q : List (Nat × Envelope)) : Nat := q.length

/-- Queue `clear`: remove all entries. -/
def clear (_q : List (Nat × Envelope)) : List (Nat × Envelope) := []

/- ------------------------------------------------------------------ -/
/- The Offline Transport Engine (offline.ts)                           -/
/- ------------------------------------------------------------------ -/

/-- Engine options.  `hasStore` is whether `createStore` was supplied (the
engine only tests `store` for truthiness).  The user `shouldStore` filter is
modelled without its opaque `Error` argument. -/
structure Options where
  hasStore : Bool
  fullOffline : Bool
  flushAtStartup : Bool
  shouldStore : Option (Envelope → Nat → Bool)
  maxQueueSize : Nat

/-- An armed `setTimeout` handle: its id, the scheduled delay, and the
`isFlushingHead` flag the callback was created with. -/
structure TimerInfo where
  id : Nat
  delay : Nat
  isFlushingHead : Bool
deriving DecidableEq

/-- The engine's mutable state: `retryDelay`, the armed `flushTimer` (if
any), `sizeToFlush` and `flushedCnt` (JS numbers, so `Int`), the persisted
queue, plus the embedding's timer bookkeeping: the multiset of pending timer
ids in the host and a fresh-id counter. -/
structure EngineState where
  retryDelay : Nat
  flushTimer : Option TimerInfo
  sizeToFlush : Int
  flushedCnt : Int
  queue : List (Nat × Envelope)
  pending : List Nat
  nextId : Nat
deriving DecidableEq

/-- The engine state at construction time, over an initial persisted queue
(the store survives restarts). -/
def initState (q0 : List (Nat × Envelope)) : EngineState :=
  { retryDelay := 0, flushTimer := none, sizeToFlush := 0, flushedCnt := 0
    queue := q0, pending := [], nextId := 0 }

/-- Headers of a transport response; only `retry-after` is consulted. -/
structure Headers where
  retryAfter : Option String
deriving DecidableEq

/-- A transport response: `statusCode?` and `headers?`. -/
structure Response where
  statusCode : Option Nat
  headers : Option Headers
deriving DecidableEq

/-- Outcome of `transport.send(envelope)`: resolved (possibly with no
response value) or rejected with an error. -/
inductive TransportResult where
  | resolved (r : Option Response)
  | rejected
deriving DecidableEq

/-- The JS condition `result && result.headers && result.headers['retry-after']`:
the header string when the response, its headers object and a truthy (non
empty) header value are all present. -/
def retryAfterHeaderVal : Option Response → Option String
  | none => none
  | some r =>
    match r.headers with
    | none => none
    | some hs =>
      match hs.retryAfter with
      | none => none
      | some s => if s = "" then none else some s

/-- The JS expression `result.statusCode || 0` (with `0` for a missing
response). -/
def statusCodeOr0 : Option Response → Nat
  | none => 0
  | some r => r.statusCode.getD 0

/-- What `send` resolves to: the `{}` object, the inner transport's result
passed through, or a thrown error. -/
inductive SendRet where
  | emptyObj
  | passthrough (r : Option Response)
  | thrown
deriving DecidableEq

/-- Observable effects of one `send` call: whether the inner transport was
invoked and whether the user `shouldStore` filter was consulted. -/
structure SendEffects where
  transportCalled : Bool
  shouldStoreConsulted : Bool
deriving DecidableEq

/-- `shouldQueue` from offline.ts: replay and client-report envelopes are
never queued; otherwise the user filter decides, defaulting to true. -/
def shouldQueue (opts : Options) (env : Envelope) (retryDelay : Nat) : Bool :=
  if envelopeContainsItemType env ["replay_event", "replay_recording", "client_report"] then
    false
  else
    match opts.shouldStore with
    | some f => f env retryDelay
    | none => true

/-- The backoff escalation in the catch branch of `send`:
`Math.max(Math.min(retryDelay * 2, MAX_DELAY), START_DELAY)`. -/
def nextRetryDelay (d : Nat) : Nat :=
  max (min (d * 2) MAX_DELAY) START_DELAY

/-- `flushIn(delay, isFlushingHead)` up to (and excluding) the timer firing:
without a store it resolves immediately; otherwise it cancels any armed
timer (`clearTimeout`) and arms a fresh one carrying `delay` and
`isFlushingHead`.  The callback body is `flushCallback` below. -/
def flushIn (opts : Options) (st : EngineState) (delay : Nat)
    (isFlushingHead : Bool) : EngineState :=
  if !opts.hasStore then st
  else
    let st1 :=
      match st.flushTimer with
      | some tm => { st with pending := st.pending.erase tm.id }
      | none => st
    { st1 with
      flushTimer := some ⟨st1.nextId, delay, isFlushingHead⟩
      pending := st1.pending ++ [st1.nextId]
      nextId := st1.nextId + 1 }

/-- `flushWithBackOff(isFlushingHead)`: a no-op when a timer is already
armed, else `flushIn(retryDelay, isFlushingHead)`. -/
def flushWithBackOff (opts : Options) (st : EngineState)
    (isFlushingHead : Bool) : EngineState :=
  match st.flushTimer with
  | some _ => st
  | none => flushIn opts st st.retryDelay isFlushingHead

/-- `send(envelope, isFlushingHead)` from offline.ts, as a function of the
inner transport's outcome `tr`.
* Full-offline short-circuit: with a store, `fullOffline` and not a head
  drain, insert at the tail and resolve `{}` — the transport and the
  `shouldStore` filter are never consulted.
* Resolved: `delay` starts at MIN_DELAY; a truthy retry-after header
  replaces it with the parsed value; otherwise a status of at least 400
  returns the response unchanged; the remaining cases zero `retryDelay` and
  call `flushIn(delay, isFlushingHead)`.
* Rejected: escalate `retryDelay`; if a store exists and `shouldQueue`
  allows, reinsert (at the head with `flushedCnt--` plus
  `flushWithBackOff(true)` for a head drain, else at the tail with
  `flushWithBackOff()`) and resolve `{}`; otherwise re-throw. -/
def send (opts : Options) (parse : String → Nat) (st : EngineState)
    (env : Envelope) (isFlushingHead : Bool) (tr : TransportResult) :
    EngineState × SendRet × SendEffects :=
  if opts.hasStore && opts.fullOffline && !isFlushingHead then
    ({ st with queue := insert st.queue env opts.maxQueueSize false },
     .emptyObj, ⟨false, false⟩)
  else
    match tr with
    | .resolved result =>
      match retryAfterHeaderVal result with
      | some s =>
        (flushIn opts { st with retryDelay := 0 } (parse s) isFlushingHead,
         .passthrough result, ⟨true, false⟩)
      | none =>
        if 400 ≤ statusCodeOr0 result then
          (st, .passthrough result, ⟨true, false⟩)
        else
          (flushIn opts { st with retryDelay := 0 } MIN_DELAY isFlushingHead,
           .passthrough result, ⟨true, false⟩)
    | .rejected =>
      let rd := nextRetryDelay st.retryDelay
      let st1 := { st with retryDelay := rd }
      let consulted := opts.hasStore
        && !envelopeContainsItemType env ["replay_event", "replay_recording", "client_report"]
        && opts.shouldStore.isSome
      if opts.hasStore && shouldQueue opts env rd then
        if isFlushingHead then
          let st2 := { st1 with
            queue := insert st1.queue env opts.maxQueueSize true
            flushedCnt := st1.flushedCnt - 1 }
          (flushWithBackOff opts st2 true, .emptyObj, ⟨true, consulted⟩)
        else
          let st2 := { st1 with
            queue := insert st1.queue env opts.maxQueueSize false }
          (flushWithBackOff opts st2 false, .emptyObj, ⟨true, consulted⟩)
      else
        (st1, .thrown, ⟨true, consulted⟩)

/-- The timer callback installed by `flushIn`: clears the timer handle,
computes `offset` and `canPop`, pops one envelope when allowed, sends it with
the timer's `isFlushingHead` flag (its errors are swallowed), bumping
`flushedCnt` on a head pop and zeroing both counters when the head drain
completes.  `tr` is the inner transport's outcome for the nested send. -/
def flushCallback (opts : Options) (parse : String → Nat) (st : EngineState)
    (tr : TransportResult) : EngineState :=
  match st.flushTimer with
  | none => st
  | some tm =>
    let st0 := { st with flushTimer := none, pending := st.pending.erase tm.id }
    let offset : Int :=
      if tm.isFlushingHead then 0 else st0.sizeToFlush - st0.flushedCnt
    let canPop : Bool :=
      if tm.isFlushingHead then decide (st0.flushedCnt < st0.sizeToFlush) else true
    let popRes := if canPop then pop st0.queue offset else (none, st0.queue)
    let st1 := { st0 with queue := popRes.2 }
    let st2 :=
      match popRes.1 with
      | none => st1
      | some env =>
        let st1h :=
          if tm.isFlushingHead then { st1 with flushedCnt := st1.flushedCnt + 1 }
          else st1
        (send opts parse st1h env tm.isFlushingHead tr).1
    if tm.isFlushingHead && st2.flushedCnt = st2.sizeToFlush then
      { st2 with sizeToFlush := 0, flushedCnt := 0 }
    else st2

/-- The transport's `flush(t)` method from offline.ts.  In `fullOffline`
mode the guard is the literal JS expression `t ?? 0 < 0`, which by operator
precedence is `t ?? (0 < 0)`: truthy exactly when `t` is defined and
nonzero.  When it holds, `await store?.clear()` and return true; else a
drain in progress (`sizeToFlush > 0`) returns false; else snapshot
`sizeToFlush := await store?.size() || 0` and arm a head drain when
positive.  Outside `fullOffline` the inner transport's flush result
(`innerFlush`) is returned. -/
def flush (opts : Options) (st : EngineState) (t : Option Int)
    (innerFlush : Bool) : EngineState × Bool :=
  if opts.fullOffline then
    if (match t with | none => false | some v => v ≠ 0 : Bool) then
      ({ st with queue := if opts.hasStore then clear st.queue else st.queue }, true)
    else if 0 < st.sizeToFlush then
      (st, false)
    else
      let sz : Int := if opts.hasStore then (size st.queue : Int) else 0
      let st1 := { st with sizeToFlush := sz }
      if 0 < sz then (flushWithBackOff opts st1 true, true)
      else (st1, true)
  else
    (st, innerFlush)

/-- One observable step of the engine: a `send` with any inputs, an armed
timer firing, a `flush` call, or a direct `flushWithBackOff` (as performed
at startup when `flushAtStartup` is set). -/
inductive EngineStep (opts : Options) (parse : String → Nat) :
    EngineState → EngineState → Prop where
  | sendStep (st : EngineState) (env : Envelope) (head : Bool)
      (tr : TransportResult) :
      EngineStep opts parse st (send opts parse st env head tr).1
  | fire (st : EngineState) (tr : TransportResult) :
      EngineStep opts parse st (flushCallback opts parse st tr)
  | flushStep (st : EngineState) (t : Option Int) (b : Bool) :
      EngineStep opts parse st (flush opts st t b).1
  | backoff (st : EngineState) (b : Bool) :
      EngineStep opts parse st (flushWithBackOff opts st b)

/- ------------------------------------------------------------------ -/
/- Queue-level lemmas                                                  -/
/- ------------------------------------------------------------------ -/

/-- Example envelope used in concrete witnesses. -/
def e1 : Envelope := ⟨["event"]⟩

/-- Second example envelope used in concrete witnesses. -/
def e2 : Envelope := ⟨["transaction"]⟩

lemma put_length (q : List (Nat × Envelope)) (k : Nat) (v : Envelope) :
    (put q k v).length ≤ q.length + 1 := by
  induction q with
  | nil => simp [put]
  | cons hd tl ih =>
    obtain ⟨k', v'⟩ := hd
    by_cases h1 : k < k'
    · simp [put, h1]
    · by_cases h2 : k = k'
      · simp [put, h1, h2]
      · simp only [put, if_neg h1, if_neg h2, List.length_cons]
        omega

lemma mem_put (q : List (Nat × Envelope)) (k : Nat) (v : Envelope)
    (p : Nat × Envelope) (hp : p ∈ put q k v) : p = (k, v) ∨ p ∈ q := by
  induction q with
  | nil => simpa [put] using hp
  | cons hd tl ih =>
    obtain ⟨k', v'⟩ := hd
    by_cases h1 : k < k'
    · simp only [put, if_pos h1] at hp
      rcases List.mem_cons.mp hp with h | h
      · exact Or.inl h
      · exact Or.inr h
    · by_cases h2 : k = k'
      · simp only [put, if_neg h1, if_pos h2] at hp
        rcases List.mem_cons.mp hp with h | h
        · exact Or.inl h
        · exact Or.inr (List.mem_cons_of_mem _ h)
      · simp only [put, if_neg h1, if_neg h2] at hp
        rcases List.mem_cons.mp hp with h | h
        · exact Or.inr (by simp [h])
        · rcases ih h with h' | h'
          · exact Or.inl h'
          · exact Or.inr (List.mem_cons_of_mem _ h')

lemma put_pairwise (q : List (Nat × Envelope)) (k : Nat) (v : Envelope)
    (hq : q.Pairwise (fun a b => a.1 < b.1)) :
    (put q k v).Pairwise (fun a b => a.1 < b.1) := by
  induction q with
  | nil => simp [put]
  | cons hd tl ih =>
    obtain ⟨k', v'⟩ := hd
    rw [List.pairwise_cons] at hq
    obtain ⟨hhd, htl⟩ := hq
    by_cases h1 : k < k'
    · simp only [put, if_pos h1]
      refine List.Pairwise.cons ?_ (List.Pairwise.cons hhd htl)
      intro p hp
      rcases List.mem_cons.mp hp with h | h
      · rw [h]
        exact h1
      · exact Nat.lt_trans h1 (hhd p h)
    · by_cases h2 : k = k'
      · simp only [put, if_neg h1, if_pos h2]
        refine List.Pairwise.cons ?_ htl
        intro p hp
        simpa [h2] using hhd p hp
      · simp only [put, if_neg h1, if_neg h2]
        refine List.Pairwise.cons ?_ (ih htl)
        intro p hp
        rcases mem_put tl k v p hp with h | h
        · rw [h]
          show k' < k
          omega
        · exact hhd p h

lemma put_cons_of_lt (q : List (Nat × Envelope)) (k : Nat) (v : Envelope)
    (h : ∀ p ∈ q, k < p.1) : put q k v = (k, v) :: q := by
  cases q with
  | nil => rfl
  | cons hd tl =>
    obtain ⟨k', v'⟩ := hd
    have hk : k < k' := h (k', v') (by simp)
    simp [put, hk]

lemma insert_of_full (q : List (Nat × Envelope)) (env : Envelope) (m : Nat)
    (toStart : Bool) (h : m ≤ q.length) : insert q env m toStart = q := by
  simp [insert, h]

lemma insert_length (q : List (Nat × Envelope)) (env : Envelope) (m : Nat)
    (toStart : Bool) (h : q.length ≤ m) : (insert q env m toStart).length ≤ m := by
  by_cases hm : m ≤ q.length
  · rw [insert_of_full q env m toStart hm]
    exact h
  · have hlt : q.length < m := Nat.lt_of_not_le hm
    unfold insert
    rw [if_neg hm]
    calc (put q (if toStart then 0 else maxKey q + 1) env).length
        ≤ q.length + 1 := put_length _ _ _
      _ ≤ m := hlt

lemma mem_insert (q : List (Nat × Envelope)) (env : Envelope) (m : Nat)
    (toStart : Bool) (p : Nat × Envelope) (hp : p ∈ insert q env m toStart) :
    p = ((if toStart then 0 else maxKey q + 1), env) ∨ p ∈ q := by
  by_cases hm : m ≤ q.length
  · rw [insert_of_full q env m toStart hm] at hp
    exact Or.inr hp
  · unfold insert at hp
    rw [if_neg hm] at hp
    exact mem_put _ _ _ _ hp

lemma insert_pairwise (q : List (Nat × Envelope)) (env : Envelope) (m : Nat)
    (toStart : Bool) (hq : q.Pairwise (fun a b => a.1 < b.1)) :
    (insert q env m toStart).Pairwise (fun a b => a.1 < b.1) := by
  by_cases hm : m ≤ q.length
  · rw [insert_of_full q env m toStart hm]
    exact hq
  · unfold insert
    rw [if_neg hm]
    exact put_pairwise _ _ _ hq

lemma pop_snd_sublist (q : List (Nat × Envelope)) (offset : Int) :
    (pop q offset).2.Sublist q := by
  unfold pop
  by_cases h0 : q.length = 0
  · simp [h0]
  · rw [if_neg h0]
    by_cases hneg : offset < 0
    · simp [hneg]
    · rw [if_neg hneg]
      cases hg : q.get? offset.toNat with
      | none => simp
      | some kv =>
        simpa using List.eraseIdx_sublist q offset.toNat

lemma pop_zero_cons (q q' : List (Nat × Envelope)) (env : Envelope)
    (h : pop q 0 = (some env, q')) : ∃ k, q = (k, env) :: q' := by
  cases q with
  | nil => simp [pop] at h
  | cons hd tl =>
    obtain ⟨k, v⟩ := hd
    simp only [pop, List.length_cons] at h
    norm_num at h
    exact ⟨k, by simp [h.1, h.2]⟩

/- ------------------------------------------------------------------ -/
/- C2: interleavings of queue operations during a head drain           -/
/- ------------------------------------------------------------------ -/

/-- A queue-level view of the engine while a head drain may be in flight:
the persisted queue plus the envelope popped by the head-drain callback
whose live send has not yet settled (`held`). -/
structure QState where
  queue : List (Nat × Envelope)
  held : Option Envelope
deriving DecidableEq

/-- The queue operations the engine can interleave, at the store level
(`m` is `maxQueueSize`):
* `tailInsert` — a tail insert (`toStart = false`): a full-offline `send`,
  or the catch branch of a failed non-head live send.  These can run while
  a head-drain send is awaiting the inner transport.
* `popAt` — a pop at any offset that does not hand the envelope to a head
  drain (the opportunistic non-head drain callback).
* `headPop` — the head-drain callback pops `keys[0]` and holds the popped
  envelope across its live send; at most one is in flight (single timer,
  `sizeToFlush` guard).
* `headOk` — the held envelope's live send settles successfully.
* `headFail` — the held envelope's live send fails and the catch branch
  re-inserts it with `toStart = true`. -/
inductive QStep (m : Nat) : QState → QState → Prop where
  | tailInsert (s : QState) (env : Envelope) :
      QStep m s ⟨insert s.queue env m false, s.held⟩
  | popAt (s : QState) (offset : Int) (v : Option Envelope)
      (q' : List (Nat × Envelope)) :
      pop s.queue offset = (v, q') → QStep m s ⟨q', s.held⟩
  | headPop (s : QState) (env : Envelope) (q' : List (Nat × Envelope)) :
      s.held = none → pop s.queue 0 = (some env, q') →
      QStep m s ⟨q', some env⟩
  | headOk (s : QState) (env : Envelope) :
      s.held = some env → QStep m s ⟨s.queue, none⟩
  | headFail (s : QState) (env : Envelope) :
      s.held = some env → QStep m s ⟨insert s.queue env m true, none⟩

/-- Invariant: the queue is strictly sorted by key, and while a head-drain
envelope is held every present key is at least 1 (key 0 can only appear via
a head re-insert, which happens only after the previous minimum was popped). -/
def QInv (s : QState) : Prop :=
  s.queue.Pairwise (fun a b => a.1 < b.1) ∧
  (s.held.isSome = true → ∀ p ∈ s.queue, 1 ≤ p.1)

lemma qstep_inv {m : Nat} {s s' : QState} (hinv : QInv s)
    (hstep : QStep m s s') : QInv s' := by
  obtain ⟨hsort, hheld⟩ := hinv
  cases hstep with
  | tailInsert env =>
    refine ⟨insert_pairwise _ _ _ _ hsort, ?_⟩
    intro hs p hp
    rcases mem_insert _ _ _ _ p hp with h | h
    · rw [h]
      simp
    · exact hheld hs p h
  | popAt offset v q' hpop =>
    have hsub : q'.Sublist s.queue := by
      have h2 := pop_snd_sublist s.queue offset
      rwa [hpop] at h2
    refine ⟨hsort.sublist hsub, ?_⟩
    intro hs p hp
    exact hheld hs p (hsub.mem hp)
  | headPop env q' hnone hpop =>
    obtain ⟨k, hk⟩ := pop_zero_cons _ _ _ hpop
    rw [hk] at hsort
    rw [List.pairwise_cons] at hsort
    refine ⟨hsort.2, ?_⟩
    intro _ p hp
    have := hsort.1 p hp
    omega
  | headOk env hsome =>
    exact ⟨hsort, by simp⟩
  | headFail env hsome =>
    exact ⟨insert_pairwise _ _ _ _ hsort, by simp⟩

lemma qreach_inv {m : Nat} {s0 s : QState} (h0 : QInv s0)
    (hr : Relation.ReflTransGen (QStep m) s0 s) : QInv s := by
  induction hr with
  | refl => exact h0
  | tail _ hstep ih => exact qstep_inv ih hstep

/-- C2 (amended): for every reachable queue state in which a head-drain
envelope is held, if the queue currently has fewer than `maxQueueSize`
entries then the failure re-insert (`insert` with `toStart = true`) stores
the envelope at key 0, which is strictly less than every key currently
present, so the re-inserted envelope becomes the unique head; if the queue
is full the re-insert is silently dropped (see the counterexample). -/
theorem head_reinsert_lowest_key (m : Nat) (s0 s : QState) (env : Envelope)
    (h0 : QInv s0) (hr : Relation.ReflTransGen (QStep m) s0 s)
    (hheld : s.held = some env) (hroom : s.queue.length < m) :
    (∀ p ∈ s.queue, 0 < p.1) ∧
    insert s.queue env m true = (0, env) :: s.queue := by
  have hinv := qreach_inv h0 hr
  have hkeys : ∀ p ∈ s.queue, 0 < p.1 := by
    intro p hp
    have := hinv.2 (by rw [hheld]; rfl) p hp
    omega
  refine ⟨hkeys, ?_⟩
  unfold insert
  rw [if_neg (Nat.not_le_of_lt hroom), if_pos rfl]
  exact put_cons_of_lt _ _ _ hkeys

/-- Witness for C2 (amended) at a concrete reachable state: after a tail
insert and a head pop on an empty store with `maxQueueSize = 1`, the
failure re-insert of the held envelope yields the head entry `(0, e1)`. -/
theorem head_reinsert_lowest_key_witness :
    Offline.insert [] Offline.e1 1 true = [(0, Offline.e1)] := by
  have step1 : QStep 1 ⟨[], none⟩ ⟨[(1, e1)], none⟩ :=
    QStep.tailInsert ⟨[], none⟩ e1
  have step2 : QStep 1 ⟨[(1, e1)], none⟩ ⟨[], some e1⟩ :=
    QStep.headPop ⟨[(1, e1)], none⟩ e1 [] rfl rfl
  have hr : Relation.ReflTransGen (QStep 1) ⟨[], none⟩ ⟨[], some e1⟩ :=
    Relation.ReflTransGen.tail (Relation.ReflTransGen.single step1) step2
  exact (head_reinsert_lowest_key 1 ⟨[], none⟩ ⟨[], some e1⟩ e1
    (by constructor <;> simp) hr rfl (by decide)).2

/-- Counterexample to C2 as stated: the state with queue `[(1, e2)]` and
held envelope `e1` is reachable with `maxQueueSize = 1` (tail insert `e1`;
head-drain pop of `e1`; while its live send is in flight a concurrent send
tail-inserts `e2`, filling the queue).  The head-drain failure re-insert of
`e1` then hits a full queue and is silently dropped: the queue is unchanged
and `e1` is not stored at all, so it does not become the head. -/
theorem head_reinsert_dropped_when_full :
    Relation.ReflTransGen (QStep 1) ⟨[], none⟩ ⟨[(1, Offline.e2)], some Offline.e1⟩ ∧
    QStep 1 ⟨[(1, Offline.e2)], some Offline.e1⟩
      ⟨Offline.insert [(1, Offline.e2)] Offline.e1 1 true, none⟩ ∧
    Offline.insert [(1, Offline.e2)] Offline.e1 1 true = [(1, Offline.e2)] ∧
    Offline.e1 ∉ (Offline.insert [(1, Offline.e2)] Offline.e1 1 true).map Prod.snd := by
  have step1 : QStep 1 ⟨[], none⟩ ⟨[(1, e1)], none⟩ :=
    QStep.tailInsert ⟨[], none⟩ e1
  have step2 : QStep 1 ⟨[(1, e1)], none⟩ ⟨[], some e1⟩ :=
    QStep.headPop ⟨[(1, e1)], none⟩ e1 [] rfl rfl
  have step3 : QStep 1 ⟨[], some e1⟩ ⟨[(1, e2)], some e1⟩ :=
    QStep.tailInsert ⟨[], some e1⟩ e2
  refine ⟨?_, QStep.headFail ⟨[(1, e2)], some e1⟩ e1 rfl, by decide, by decide⟩
  exact Relation.ReflTransGen.tail
    (Relation.ReflTransGen.tail (Relation.ReflTransGen.single step1) step2) step3

/- ------------------------------------------------------------------ -/
/- C4: capacity                                                         -/
/- ------------------------------------------------------------------ -/

lemma insert_foldl_le (m : Nat) (ops : List (Envelope × Bool)) :
    ∀ acc : List (Nat × Envelope), acc.length ≤ m →
      (ops.foldl (fun a p => insert a p.1 m p.2) acc).length ≤ m := by
  induction ops with
  | nil =>
    intro acc h
    simpa using h
  | cons op rest ih =>
    intro acc h
    exact ih _ (insert_length _ _ _ _ h)

/-- C4: an `insert` on a queue already holding at least `maxQueueSize`
entries is a silent no-op (the queue is returned unchanged, nothing is
written and no error is raised), a single insert preserves the capacity
bound, and any sequence of inserts starting from the empty queue leaves at
most `maxQueueSize` entries. -/
theorem insert_capacity (q : List (Nat × Envelope)) (env : Envelope)
    (m : Nat) (toStart : Bool) :
    (m ≤ q.length → insert q env m toStart = q) ∧
    (q.length ≤ m → (insert q env m toStart).length ≤ m) ∧
    (∀ ops : List (Envelope × Bool),
      (ops.foldl (fun a p => insert a p.1 m p.2) []).length ≤ m) := by
  refine ⟨insert_of_full q env m toStart, insert_length q env m toStart, ?_⟩
  intro ops
  exact insert_foldl_le m ops [] (by simp)

/-- Witness for C4: with `maxQueueSize = 1`, inserting into the full queue
`[(1, e1)]` returns it unchanged, and a sequence of three inserts into an
empty store leaves at most one entry. -/
theorem insert_capacity_witness :
    Offline.insert [(1, Offline.e1)] Offline.e2 1 false = [(1, Offline.e1)] ∧
    (([(Offline.e1, false), (Offline.e2, false), (Offline.e1, true)] :
        List (Envelope × Bool)).foldl
      (fun a p => Offline.insert a p.1 1 p.2) []).length ≤ 1 :=
  ⟨(insert_capacity [(1, e1)] e2 1 false).1 (by decide),
   (insert_capacity [] e1 1 false).2.2 [(e1, false), (e2, false), (e1, true)]⟩

/- ------------------------------------------------------------------ -/
/- Engine-level helper lemmas and example instances                    -/
/- ------------------------------------------------------------------ -/

/-- Options with a store, live (non-full-offline) mode, no user filter. -/
def optsLive : Options := ⟨true, false, false, none, 30⟩

/-- Options with a store and `fullOffline` enabled, `maxQueueSize = 1`. -/
def optsFull1 : Options := ⟨true, true, false, none, 1⟩

/-- Options with a store, live mode and a user `shouldStore` filter that
always allows storage. -/
def optsFilter : Options := ⟨true, false, false, some (fun _ _ => true), 30⟩

/-- A replay envelope, excluded from queueing by `shouldQueue`. -/
def replayEnv : Envelope := ⟨["replay_event"]⟩

/-- The `statusCode` field of a possibly-missing response. -/
def statusCodeOf (r : Option Response) : Option Nat :=
  r.bind (fun x => x.statusCode)

lemma live_cond_false {opts : Options} {head : Bool}
    (h : ¬(opts.hasStore = true ∧ opts.fullOffline = true ∧ head = false)) :
    (opts.hasStore && opts.fullOffline && !head) = false := by
  cases hs : opts.hasStore <;> cases hf : opts.fullOffline <;> cases head <;>
    simp_all

lemma statusCodeOr0_of_missing {r : Option Response}
    (h : statusCodeOf r = none) : statusCodeOr0 r = 0 := by
  cases r with
  | none => rfl
  | some resp =>
    simp only [statusCodeOf, Option.bind] at h
    simp [statusCodeOr0, h]

lemma flushIn_retryDelay (opts : Options) (st : EngineState) (d : Nat)
    (b : Bool) : (flushIn opts st d b).retryDelay = st.retryDelay := by
  unfold flushIn
  cases opts.hasStore <;> cases st.flushTimer <;> simp

lemma flushIn_queue (opts : Options) (st : EngineState) (d : Nat)
    (b : Bool) : (flushIn opts st d b).queue = st.queue := by
  unfold flushIn
  cases opts.hasStore <;> cases st.flushTimer <;> simp

lemma flushIn_flushTimer_of_store (opts : Options) (st : EngineState)
    (d : Nat) (b : Bool) (hs : opts.hasStore = true) :
    (flushIn opts st d b).flushTimer = some ⟨st.nextId, d, b⟩ := by
  unfold flushIn
  rw [hs]
  cases st.flushTimer <;> simp

lemma flushWithBackOff_retryDelay (opts : Options) (st : EngineState)
    (b : Bool) : (flushWithBackOff opts st b).retryDelay = st.retryDelay := by
  unfold flushWithBackOff
  cases st.flushTimer <;> simp [flushIn_retryDelay]

lemma flushWithBackOff_queue (opts : Options) (st : EngineState)
    (b : Bool) : (flushWithBackOff opts st b).queue = st.queue := by
  unfold flushWithBackOff
  cases st.flushTimer <;> simp [flushIn_queue]

/- ------------------------------------------------------------------ -/
/- C5: server error responses do not advance the queue                 -/
/- ------------------------------------------------------------------ -/

/-- C5: on the live path, when the inner transport resolves a response with
`statusCode` at least 400 and no (truthy) retry-after header, `send` returns
that response to the caller with the engine state completely unchanged — no
drain is scheduled, the queue is not touched and `retryDelay` keeps its
value — and the `shouldStore` filter is not consulted. -/
theorem server_error_no_advance (opts : Options) (parse : String → Nat)
    (st : EngineState) (env : Envelope) (head : Bool) (resp : Response)
    (hlive : ¬(opts.hasStore = true ∧ opts.fullOffline = true ∧ head = false))
    (hhdr : retryAfterHeaderVal (some resp) = none)
    (hsc : 400 ≤ statusCodeOr0 (some resp)) :
    send opts parse st env head (.resolved (some resp)) =
      (st, .passthrough (some resp), ⟨true, false⟩) := by
  unfold send
  rw [live_cond_false hlive]
  simp [hhdr, hsc]

/-- Witness for C5: a 500 response without headers leaves the freshly
constructed engine state untouched and is passed through. -/
theorem server_error_no_advance_witness :
    send optsLive parseRetryAfterSpec (initState []) e1 false
        (.resolved (some ⟨some 500, none⟩)) =
      (initState [], .passthrough (some ⟨some 500, none⟩), ⟨true, false⟩) :=
  server_error_no_advance optsLive parseRetryAfterSpec (initState []) e1 false
    ⟨some 500, none⟩ (by decide) rfl (by decide)

/- ------------------------------------------------------------------ -/
/- C6: replay / client-report envelopes are never queued               -/
/- ------------------------------------------------------------------ -/

/-- C6: when a live send of an envelope whose item types intersect
`{replay_event, replay_recording, client_report}` fails, the envelope is
never inserted into the queue (whatever the user `shouldStore` filter is —
it is not even consulted), the transport error is re-raised to the caller,
and the queue is left unchanged (`retryDelay` is still escalated). -/
theorem replay_never_queued (opts : Options) (parse : String → Nat)
    (st : EngineState) (env : Envelope) (head : Bool)
    (htype : envelopeContainsItemType env
      ["replay_event", "replay_recording", "client_report"] = true)
    (hlive : ¬(opts.hasStore = true ∧ opts.fullOffline = true ∧ head = false)) :
    (send opts parse st env head .rejected).2.1 = .thrown ∧
    (send opts parse st env head .rejected).1.queue = st.queue ∧
    (send opts parse st env head .rejected).1.retryDelay =
      nextRetryDelay st.retryDelay ∧
    (send opts parse st env head .rejected).2.2.shouldStoreConsulted = false := by
  unfold send
  rw [live_cond_false hlive]
  simp [shouldQueue, htype]

/-- Witness for C6: a failed live send of a replay envelope, with a user
filter that would allow storage, still throws and leaves the queue empty. -/
theorem replay_never_queued_witness :
    (send optsFilter parseRetryAfterSpec (initState []) replayEnv false
        .rejected).2.1 = SendRet.thrown ∧
    (send optsFilter parseRetryAfterSpec (initState []) replayEnv false
        .rejected).1.queue = [] ∧
    (send optsFilter parseRetryAfterSpec (initState []) replayEnv false
        .rejected).1.retryDelay = nextRetryDelay 0 ∧
    (send optsFilter parseRetryAfterSpec (initState []) replayEnv false
        .rejected).2.2.shouldStoreConsulted = false :=
  replay_never_queued optsFilter parseRetryAfterSpec (initState []) replayEnv
    false (by decide) (by decide)

/- ------------------------------------------------------------------ -/
/- C8: retry-after header overrides the scheduled delay                -/
/- ------------------------------------------------------------------ -/

/-- C8: on the live path, when the resolved response carries a (truthy)
retry-after header `s`, `send` zeroes `retryDelay` and schedules the next
drain via `flushIn` at delay `parse s` instead of the default MIN_DELAY —
with no constraint on the status code, so this holds even for responses
with `statusCode` at least 400; with a store present, the armed timer
carries exactly that parsed delay. -/
theorem retry_after_overrides_delay (opts : Options) (parse : String → Nat)
    (st : EngineState) (env : Envelope) (head : Bool) (resp : Response)
    (s : String)
    (hlive : ¬(opts.hasStore = true ∧ opts.fullOffline = true ∧ head = false))
    (hhdr : retryAfterHeaderVal (some resp) = some s) :
    send opts parse st env head (.resolved (some resp)) =
      (flushIn opts { st with retryDelay := 0 } (parse s) head,
       .passthrough (some resp), ⟨true, false⟩) ∧
    (opts.hasStore = true →
      (send opts parse st env head (.resolved (some resp))).1.flushTimer =
        some ⟨st.nextId, parse s, head⟩) := by
  have hmain : send opts parse st env head (.resolved (some resp)) =
      (flushIn opts { st with retryDelay := 0 } (parse s) head,
       .passthrough (some resp), ⟨true, false⟩) := by
    unfold send
    rw [live_cond_false hlive]
    simp [hhdr]
  refine ⟨hmain, ?_⟩
  intro hs
  rw [hmain]
  have h2 := flushIn_flushTimer_of_store opts { st with retryDelay := 0 }
    (parse s) head hs
  simpa using h2

/-- Witness for C8: a 429 response with retry-after "7" arms the timer at
the parsed 7000 ms (not MIN_DELAY = 100 ms). -/
theorem retry_after_overrides_delay_witness :
    (send optsLive parseRetryAfterSpec (initState []) e1 false
        (.resolved (some ⟨some 429, some ⟨some "7"⟩⟩))).1.flushTimer =
      some ⟨0, parseRetryAfterSpec "7", false⟩ ∧
    parseRetryAfterSpec "7" = 7000 :=
  ⟨(retry_after_overrides_delay optsLive parseRetryAfterSpec (initState [])
      e1 false ⟨some 429, some ⟨some "7"⟩⟩ "7" (by decide) rfl).2 rfl,
   by decide⟩

/- ------------------------------------------------------------------ -/
/- C9: full-offline sends only enqueue                                 -/
/- ------------------------------------------------------------------ -/

/-- C9: with a store configured and `fullOffline` enabled, every non-head
`send` short-circuits: it tail-inserts the envelope and resolves `{}`
without ever invoking the inner transport or the `shouldStore` filter; in
particular, when the queue is already at `maxQueueSize` the envelope is
silently dropped (queue unchanged) while the caller still receives `{}`. -/
theorem fullOffline_send_enqueues (opts : Options) (parse : String → Nat)
    (st : EngineState) (env : Envelope) (tr : TransportResult)
    (hs : opts.hasStore = true) (hf : opts.fullOffline = true) :
    send opts parse st env false tr =
      ({ st with queue := insert st.queue env opts.maxQueueSize false },
       .emptyObj, ⟨false, false⟩) ∧
    (opts.maxQueueSize ≤ st.queue.length →
      (send opts parse st env false tr).1.queue = st.queue) := by
  have hmain : send opts parse st env false tr =
      ({ st with queue := insert st.queue env opts.maxQueueSize false },
       .emptyObj, ⟨false, false⟩) := by
    unfold send
    simp [hs, hf]
  refine ⟨hmain, ?_⟩
  intro hfull
  rw [hmain]
  simpa using insert_of_full st.queue env opts.maxQueueSize false hfull

/-- Witness for C9: with `fullOffline` and a full one-slot queue, a send
drops the envelope (queue unchanged) yet resolves `{}`, with neither the
transport nor the filter consulted. -/
theorem fullOffline_send_enqueues_witness :
    (send optsFull1 parseRetryAfterSpec
        { initState [] with queue := [(1, e1)] } e2 false .rejected).1.queue =
      [(1, e1)] ∧
    (send optsFull1 parseRetryAfterSpec
        { initState [] with queue := [(1, e1)] } e2 false .rejected).2 =
      (SendRet.emptyObj, ⟨false, false⟩) := by
  have h := fullOffline_send_enqueues optsFull1 parseRetryAfterSpec
    { initState [] with queue := [(1, e1)] } e2 .rejected rfl rfl
  refine ⟨h.2 (by decide), ?_⟩
  rw [h.1]

/- ------------------------------------------------------------------ -/
/- C10: missing response / missing statusCode is a success             -/
/- ------------------------------------------------------------------ -/

/-- C10 (amended): on the live path, if the inner transport resolves with
no response value, or with a response lacking a `statusCode` field, the
engine treats it as a success: the effective status defaults to 0 (below
the 400 threshold, so the server-error early return is not taken),
`retryDelay` is reset to 0, the result is passed through, and a drain is
scheduled via `flushIn` at MIN_DELAY when no (truthy) retry-after header is
present — when such a header is present the drain is scheduled at the
parsed retry-after delay instead. -/
theorem missing_status_success (opts : Options) (parse : String → Nat)
    (st : EngineState) (env : Envelope) (head : Bool) (r : Option Response)
    (hlive : ¬(opts.hasStore = true ∧ opts.fullOffline = true ∧ head = false))
    (hsc : statusCodeOf r = none) :
    (send opts parse st env head (.resolved r)).1.retryDelay = 0 ∧
    (send opts parse st env head (.resolved r)).2.1 = .passthrough r ∧
    (retryAfterHeaderVal r = none →
      send opts parse st env head (.resolved r) =
        (flushIn opts { st with retryDelay := 0 } MIN_DELAY head,
         .passthrough r, ⟨true, false⟩)) ∧
    (∀ s, retryAfterHeaderVal r = some s →
      send opts parse st env head (.resolved r) =
        (flushIn opts { st with retryDelay := 0 } (parse s) head,
         .passthrough r, ⟨true, false⟩)) := by
  have hsc0 : statusCodeOr0 r = 0 := statusCodeOr0_of_missing hsc
  cases hh : retryAfterHeaderVal r with
  | none =>
    have hmain : send opts parse st env head (.resolved r) =
        (flushIn opts { st with retryDelay := 0 } MIN_DELAY head,
         .passthrough r, ⟨true, false⟩) := by
      unfold send
      rw [live_cond_false hlive]
      simp [hh, hsc0]
    refine ⟨?_, ?_, fun _ => hmain, ?_⟩
    · rw [hmain]
      simp [flushIn_retryDelay]
    · rw [hmain]
    · intro s hs
      exact Option.noConfusion hs
  | some s0 =>
    have hmain : send opts parse st env head (.resolved r) =
        (flushIn opts { st with retryDelay := 0 } (parse s0) head,
         .passthrough r, ⟨true, false⟩) := by
      unfold send
      rw [live_cond_false hlive]
      simp [hh]
    refine ⟨?_, ?_, ?_, ?_⟩
    · rw [hmain]
      simp [flushIn_retryDelay]
    · rw [hmain]
    · intro hnone
      exact Option.noConfusion hnone
    · intro s hs
      have hss : s0 = s := by injection hs
      rw [hss] at hmain
      exact hmain

/-- Witness for C10 (amended): a transport that resolves `void` resets
`retryDelay` to 0, passes the empty result through, and arms the timer at
MIN_DELAY. -/
theorem missing_status_success_witness :
    (send optsLive parseRetryAfterSpec (initState []) e1 false
        (.resolved none)).1.retryDelay = 0 ∧
    (send optsLive parseRetryAfterSpec (initState []) e1 false
        (.resolved none)).2.1 = SendRet.passthrough none ∧
    (send optsLive parseRetryAfterSpec (initState []) e1 false
        (.resolved none)).1.flushTimer = some ⟨0, MIN_DELAY, false⟩ := by
  have h := missing_status_success optsLive parseRetryAfterSpec (initState [])
    e1 false none (by decide) rfl
  refine ⟨h.1, h.2.1, ?_⟩
  rw [h.2.2.1 rfl]
  decide

/-- Counterexample to C10 as stated: a resolved response lacking
`statusCode` but carrying retry-after "7" schedules the drain at the parsed
7000 ms, not at MIN_DELAY = 100 ms. -/
theorem missing_status_minDelay_cex :
    (send optsLive parseRetryAfterSpec (initState []) e1 false
        (.resolved (some ⟨none, some ⟨some "7"⟩⟩))).1.flushTimer =
      some ⟨0, 7000, false⟩ ∧
    (7000 : Nat) ≠ MIN_DELAY := by
  decide

/- ------------------------------------------------------------------ -/
/- C3: exponential backoff                                             -/
/- ------------------------------------------------------------------ -/

lemma send_rejected_retryDelay (opts : Options) (parse : String → Nat)
    (st : EngineState) (env : Envelope) (head : Bool)
    (hlive : ¬(opts.hasStore = true ∧ opts.fullOffline = true ∧ head = false)) :
    (send opts parse st env head .rejected).1.retryDelay =
      nextRetryDelay st.retryDelay := by
  unfold send
  rw [live_cond_false hlive]
  by_cases hq :
      (opts.hasStore && shouldQueue opts env (nextRetryDelay st.retryDelay)) = true
  · simp only [hq, if_true]
    cases head <;> simp [flushWithBackOff_retryDelay]
  · simp only [Bool.not_eq_true] at hq
    simp [hq]

lemma nextRetryDelay_iter (n : Nat) :
    nextRetryDelay^[n + 1] 0 = min (START_DELAY * 2 ^ n) MAX_DELAY := by
  induction n with
  | zero => decide
  | succ k ih =>
    rw [Function.iterate_succ_apply', ih]
    have h1 : 0 < 2 ^ k := Nat.two_pow_pos k
    simp only [nextRetryDelay, START_DELAY, MAX_DELAY, pow_succ] at *
    generalize 2 ^ k = a at *
    omega

/-- C3: along any trajectory of live sends in which the transport rejects
`n` consecutive times starting from a state with `retryDelay = 0` (the
state after any live success), the `retryDelay` after the Nth consecutive
failure is exactly `min(START_DELAY * 2 ^ (N - 1), MAX_DELAY)` — in
particular START_DELAY = 5000 ms after the first failure — and always lies
in `[START_DELAY, MAX_DELAY]`; and after any live send resolving with a
status below 400, `retryDelay` is reset to 0. -/
theorem retryDelay_backoff :
    (∀ (opts : Options) (parse : String → Nat) (sts : Nat → EngineState)
       (envs : Nat → Envelope) (heads : Nat → Bool) (n : Nat),
      (sts 0).retryDelay = 0 →
      (∀ k, k < n →
        ¬(opts.hasStore = true ∧ opts.fullOffline = true ∧ heads k = false)) →
      (∀ k, k < n →
        sts (k + 1) = (send opts parse (sts k) (envs k) (heads k) .rejected).1) →
      1 ≤ n →
      ((sts n).retryDelay = min (START_DELAY * 2 ^ (n - 1)) MAX_DELAY ∧
       START_DELAY ≤ (sts n).retryDelay ∧ (sts n).retryDelay ≤ MAX_DELAY)) ∧
    (∀ (opts : Options) (parse : String → Nat) (st : EngineState)
       (env : Envelope) (head : Bool) (r : Option Response),
      ¬(opts.hasStore = true ∧ opts.fullOffline = true ∧ head = false) →
      statusCodeOr0 r < 400 →
      (send opts parse st env head (.resolved r)).1.retryDelay = 0) := by
  constructor
  · intro opts parse sts envs heads n h0 hlive hlink hn
    have haux : ∀ k, k ≤ n → (sts k).retryDelay = nextRetryDelay^[k] 0 := by
      intro k
      induction k with
      | zero =>
        intro _
        simpa using h0
      | succ j ihj =>
        intro hk
        have hj : j < n := Nat.lt_of_lt_of_le (Nat.lt_succ_self j) hk
        rw [hlink j hj,
          send_rejected_retryDelay opts parse (sts j) (envs j) (heads j)
            (hlive j hj),
          ihj (Nat.le_of_lt hj), Function.iterate_succ_apply']
    obtain ⟨m, rfl⟩ : ∃ m, n = m + 1 :=
      ⟨n - 1, (Nat.succ_pred_eq_of_pos hn).symm⟩
    rw [haux (m + 1) (Nat.le_refl _), nextRetryDelay_iter m]
    refine ⟨by simp, ?_, Nat.min_le_right _ _⟩
    have h1 : 0 < 2 ^ m := Nat.two_pow_pos m
    have h2 : START_DELAY ≤ START_DELAY * 2 ^ m :=
      Nat.le_mul_of_pos_right _ h1
    have h3 : START_DELAY ≤ MAX_DELAY := by decide
    exact Nat.le_min.mpr ⟨h2, h3⟩
  · intro opts parse st env head r hlive hsc
    cases hh : retryAfterHeaderVal r with
    | none =>
      unfold send
      rw [live_cond_false hlive]
      simp [hh, Nat.not_le.mpr hsc, flushIn_retryDelay]
    | some s =>
      unfold send
      rw [live_cond_false hlive]
      simp [hh, flushIn_retryDelay]

/-- A concrete trajectory of consecutive live failures for the C3 witness. -/
def traj3 : Nat → EngineState
  | 0 => initState []
  | k + 1 => (send optsLive parseRetryAfterSpec (traj3 k) e1 false .rejected).1

/-- Witness for C3: after two consecutive failures the retry delay is
`min(START_DELAY * 2, MAX_DELAY) = 10000` ms, within the bounds. -/
theorem retryDelay_backoff_witness :
    (traj3 2).retryDelay = min (START_DELAY * 2 ^ 1) MAX_DELAY ∧
    START_DELAY ≤ (traj3 2).retryDelay ∧ (traj3 2).retryDelay ≤ MAX_DELAY :=
  retryDelay_backoff.1 optsLive parseRetryAfterSpec traj3 (fun _ => e1)
    (fun _ => false) 2 rfl (by decide) (fun _ _ => rfl) (by decide)

/- ------------------------------------------------------------------ -/
/- C1: the fullOffline flush guard                                     -/
/- ------------------------------------------------------------------ -/

/-- C1 (code bug): the guard in `flush` is the literal JS expression
`t ?? 0 < 0`, which parses as `t ?? (0 < 0)` because `<` binds tighter
than `??`.  It is therefore truthy for every defined nonzero `timeoutMs`,
not only negative ones.  Evaluated at the failing input `timeoutMs = 2000`
(full-offline mode, no drain in progress, nonempty queue): the code clears
the queue and returns `true` with no `sizeToFlush` snapshot and no head
drain armed, where the claim (and the spec, section 4.D.2: only a negative
`timeoutMs` purges) requires the queue to be kept, `sizeToFlush` to become
1 and a head drain to be armed. -/
theorem flush_positive_timeout_purges :
    (flush optsFull1 { initState [] with queue := [(1, e1)] }
        (some 2000) false).2 = true ∧
    (flush optsFull1 { initState [] with queue := [(1, e1)] }
        (some 2000) false).1.queue = [] ∧
    (flush optsFull1 { initState [] with queue := [(1, e1)] }
        (some 2000) false).1.sizeToFlush = 0 ∧
    (flush optsFull1 { initState [] with queue := [(1, e1)] }
        (some 2000) false).1.flushTimer = none := by
  decide

/- ------------------------------------------------------------------ -/
/- C7: at most one flushTimer                                          -/
/- ------------------------------------------------------------------ -/

/-- The pending-timer ids a timer handle accounts for. -/
def timerIds : Option TimerInfo → List Nat
  | none => []
  | some tm => [tm.id]

/-- Timer bookkeeping invariant: the host's pending timers are exactly the
one tracked by the `flushTimer` handle, and any armed timer has an id below
the fresh-id counter. -/
def TimersOK (st : EngineState) : Prop :=
  st.pending = timerIds st.flushTimer ∧
  ∀ tm, st.flushTimer = some tm → tm.id < st.nextId

lemma flushIn_nostore (opts : Options) (st : EngineState) (d : Nat) (b : Bool)
    (hs : opts.hasStore = false) : flushIn opts st d b = st := by
  unfold flushIn
  rw [hs]
  simp

lemma flushIn_arm_none (opts : Options) (st : EngineState) (d : Nat) (b : Bool)
    (hs : opts.hasStore = true) (hft : st.flushTimer = none) :
    flushIn opts st d b = { st with
      flushTimer := some ⟨st.nextId, d, b⟩
      pending := st.pending ++ [st.nextId]
      nextId := st.nextId + 1 } := by
  unfold flushIn
  rw [hs, hft]
  simp

lemma flushIn_arm_some (opts : Options) (st : EngineState) (d : Nat) (b : Bool)
    (tm : TimerInfo) (hs : opts.hasStore = true)
    (hft : st.flushTimer = some tm) :
    flushIn opts st d b = { st with
      flushTimer := some ⟨st.nextId, d, b⟩
      pending := st.pending.erase tm.id ++ [st.nextId]
      nextId := st.nextId + 1 } := by
  unfold flushIn
  rw [hs, hft]
  simp

lemma flushIn_timersOK (opts : Options) (st : EngineState) (d : Nat)
    (b : Bool) (h : TimersOK st) : TimersOK (flushIn opts st d b) := by
  obtain ⟨hp, hn⟩ := h
  cases hs : opts.hasStore with
  | false =>
    rw [flushIn_nostore opts st d b hs]
    exact ⟨hp, hn⟩
  | true =>
    cases hft : st.flushTimer with
    | none =>
      rw [flushIn_arm_none opts st d b hs hft]
      rw [hft] at hp
      refine ⟨?_, ?_⟩
      · show st.pending ++ [st.nextId] = timerIds (some ⟨st.nextId, d, b⟩)
        rw [hp]
        rfl
      · intro tm' htm'
        have h2 : (⟨st.nextId, d, b⟩ : TimerInfo) = tm' := by injection htm'
        rw [← h2]
        exact Nat.lt_succ_self _
    | some tm0 =>
      rw [flushIn_arm_some opts st d b tm0 hs hft]
      rw [hft] at hp
      refine ⟨?_, ?_⟩
      · show st.pending.erase tm0.id ++ [st.nextId] = timerIds (some ⟨st.nextId, d, b⟩)
        rw [hp]
        show ([tm0.id].erase tm0.id) ++ [st.nextId] = [st.nextId]
        rw [List.erase_cons_head]
        rfl
      · intro tm' htm'
        have h2 : (⟨st.nextId, d, b⟩ : TimerInfo) = tm' := by injection htm'
        rw [← h2]
        exact Nat.lt_succ_self _

lemma flushWithBackOff_timersOK (opts : Options) (st : EngineState)
    (b : Bool) (h : TimersOK st) : TimersOK (flushWithBackOff opts st b) := by
  unfold flushWithBackOff
  cases st.flushTimer with
  | none => exact flushIn_timersOK opts st st.retryDelay b h
  | some tm => exact h

lemma send_timersOK (opts : Options) (parse : String → Nat)
    (st : EngineState) (env : Envelope) (head : Bool) (tr : TransportResult)
    (h : TimersOK st) : TimersOK (send opts parse st env head tr).1 := by
  cases hcond : (opts.hasStore && opts.fullOffline && !head) with
  | true =>
    simp only [send, hcond, if_true]
    exact h
  | false =>
    cases tr with
    | resolved r =>
      cases hh : retryAfterHeaderVal r with
      | some s =>
        simp only [send, hcond, Bool.false_eq_true, if_false, hh]
        exact flushIn_timersOK opts _ (parse s) head h
      | none =>
        by_cases h4 : 400 ≤ statusCodeOr0 r
        · simp only [send, hcond, Bool.false_eq_true, if_false, hh, if_pos h4]
          exact h
        · simp only [send, hcond, Bool.false_eq_true, if_false, hh, if_neg h4]
          exact flushIn_timersOK opts _ MIN_DELAY head h
    | rejected =>
      by_cases hq : (opts.hasStore &&
          shouldQueue opts env (nextRetryDelay st.retryDelay)) = true
      · cases head with
        | true =>
          simp only [send, hcond, Bool.false_eq_true, if_false, hq, if_true]
          exact flushWithBackOff_timersOK opts _ true h
        | false =>
          simp only [send, hcond, Bool.false_eq_true, if_false, hq, if_true]
          exact flushWithBackOff_timersOK opts _ false h
      · simp only [Bool.not_eq_true] at hq
        simp only [send, hcond, Bool.false_eq_true, if_false, hq]
        exact h

lemma flushCallback_timersOK (opts : Options) (parse : String → Nat)
    (st : EngineState) (tr : TransportResult) (h : TimersOK st) :
    TimersOK (flushCallback opts parse st tr) := by
  cases hft : st.flushTimer with
  | none =>
    simp only [flushCallback, hft]
    exact h
  | some tm =>
    have hp := h.1
    rw [hft] at hp
    have h0 : TimersOK { st with
        flushTimer := none
        pending := st.pending.erase tm.id } := by
      refine ⟨?_, fun tm' htm' => Option.noConfusion htm'⟩
      show st.pending.erase tm.id = timerIds none
      rw [hp]
      show ([tm.id].erase tm.id) = []
      rw [List.erase_cons_head]
    simp only [flushCallback, hft]
    repeat' split
    all_goals first
      | exact h0
      | exact send_timersOK opts parse _ _ _ tr h0

lemma flush_timersOK (opts : Options) (st : EngineState) (t : Option Int)
    (b : Bool) (h : TimersOK st) : TimersOK (flush opts st t b).1 := by
  unfold flush
  by_cases hfo : opts.fullOffline = true
  · simp only [hfo, if_true]
    cases ht : (match t with | none => false | some v => decide (v ≠ 0)) with
    | true => exact h
    | false =>
      by_cases hsz : (0 : Int) < st.sizeToFlush
      · simp only [if_pos hsz]
        exact h
      · simp only [if_neg hsz]
        by_cases hpos : (0 : Int) <
            (if opts.hasStore then ((size st.queue : Int)) else 0)
        · simp only [if_pos hpos]
          exact flushWithBackOff_timersOK opts _ true h
        · simp only [if_neg hpos]
          exact h
  · simp only [Bool.not_eq_true] at hfo
    simp only [hfo, Bool.false_eq_true, if_false]
    exact h

lemma engineStep_timersOK {opts : Options} {parse : String → Nat}
    {s s' : EngineState} (h : TimersOK s) (hstep : EngineStep opts parse s s') :
    TimersOK s' := by
  cases hstep with
  | sendStep env head tr => exact send_timersOK opts parse s env head tr h
  | fire tr => exact flushCallback_timersOK opts parse s tr h
  | flushStep t b => exact flush_timersOK opts s t b h
  | backoff b => exact flushWithBackOff_timersOK opts s b h

lemma engineReach_timersOK {opts : Options} {parse : String → Nat}
    {q0 : List (Nat × Envelope)} {st : EngineState}
    (hr : Relation.ReflTransGen (EngineStep opts parse) (initState q0) st) :
    TimersOK st := by
  induction hr with
  | refl => exact ⟨rfl, fun tm htm => Option.noConfusion htm⟩
  | tail _ hstep ih => exact engineStep_timersOK ih hstep

/-- C7: in every engine state reachable from construction, at most one
flush timer is pending; calling `flushIn` while a timer is armed cancels
the prior timer (its id leaves the pending set) before installing the new
one, leaving exactly the new timer pending (latest wins); and
`flushWithBackOff` is a no-op returning the state unchanged whenever a
timer is already armed. -/
theorem single_flush_timer (opts : Options) (parse : String → Nat)
    (q0 : List (Nat × Envelope)) (st : EngineState)
    (hr : Relation.ReflTransGen (EngineStep opts parse) (initState q0) st) :
    st.pending.length ≤ 1 ∧
    (∀ tm d b, st.flushTimer = some tm → opts.hasStore = true →
      tm.id ∉ (flushIn opts st d b).pending ∧
      (flushIn opts st d b).flushTimer = some ⟨st.nextId, d, b⟩ ∧
      (flushIn opts st d b).pending = [st.nextId]) ∧
    (∀ b tm, st.flushTimer = some tm → flushWithBackOff opts st b = st) := by
  have hok := engineReach_timersOK hr
  refine ⟨?_, ?_, ?_⟩
  · rw [hok.1]
    cases st.flushTimer with
    | none => simp [timerIds]
    | some tm => simp [timerIds]
  · intro tm d b htm hs
    have hid : tm.id < st.nextId := hok.2 tm htm
    have hpend : (flushIn opts st d b).pending = [st.nextId] := by
      rw [flushIn_arm_some opts st d b tm hs htm]
      have hp := hok.1
      rw [htm] at hp
      show st.pending.erase tm.id ++ [st.nextId] = [st.nextId]
      rw [hp]
      show ([tm.id].erase tm.id) ++ [st.nextId] = [st.nextId]
      rw [List.erase_cons_head]
      rfl
    refine ⟨?_, ?_, hpend⟩
    · rw [hpend]
      simp
      omega
    · have h2 := flushIn_flushTimer_of_store opts st d b hs
      rw [h2]
  · intro b tm htm
    unfold flushWithBackOff
    rw [htm]

/-- Witness for C7: the state after one startup `flushWithBackOff` step is
reachable and has at most one pending timer. -/
theorem single_flush_timer_witness :
    Relation.ReflTransGen (EngineStep optsLive parseRetryAfterSpec)
      (initState []) (flushWithBackOff optsLive (initState []) false) ∧
    (flushWithBackOff optsLive (initState []) false).pending.length ≤ 1 := by
  have hr : Relation.ReflTransGen (EngineStep optsLive parseRetryAfterSpec)
      (initState []) (flushWithBackOff optsLive (initState []) false) :=
    Relation.ReflTransGen.single (EngineStep.backoff (initState []) false)
  exact ⟨hr,
    (single_flush_timer optsLive parseRetryAfterSpec [] _ hr).1⟩

end Offline
